import Mathlib

/-!
Verification of the adapter fine-tuning script `finetune/adapter.py`
(Lightning-AI/lit-parrot).

The script is shallowly embedded: the module-level hyperparameters become
Lean constants, the training loop becomes a step function on an explicit
state together with an event trace, `loss_fn` and `get_batch` become pure
functions on function- respectively list-represented tensors, and the
floating-point arithmetic of the script is modelled over the exact fields
ℚ and ℝ.
-/

set_option maxHeartbeats 1000000

/-! ## Module-level hyperparameters (lines 26-42 of the script) -/

def eval_interval : ℕ := 60
def save_interval : ℕ := 10
def eval_iters : ℕ := 100
def log_interval : ℕ := 1
def devices : ℕ := 1

/-- `learning_rate = 9e-3`, modelled exactly. -/
def learning_rate : ℚ := 9 / 1000

/-- `batch_size = 64 / devices`: Python true division, so a rational. -/
def batch_size : ℚ := 64 / (devices : ℚ)

def micro_batch_size : ℚ := 4

/-- `batch_size // micro_batch_size` for arbitrary configuration values:
Python floor division on floats, whose value is the floor of the quotient. -/
def gradient_accumulation_iters_of (bs mbs : ℚ) : ℤ := ⌊bs / mbs⌋

/-- The derived `gradient_accumulation_iters` of the script's configuration. -/
def gradient_accumulation_iters : ℤ :=
  gradient_accumulation_iters_of batch_size micro_batch_size

/-- `assert gradient_accumulation_iters > 0` (line 37): the only check run
at configuration-construction time, before any training iteration. -/
def configAssertHolds (bs mbs : ℚ) : Prop :=
  0 < gradient_accumulation_iters_of bs mbs

instance (bs mbs : ℚ) : Decidable (configAssertHolds bs mbs) := by
  unfold configAssertHolds; infer_instance

def epoch_size : ℕ := 50000
def num_epochs : ℕ := 5
def max_iters : ℕ := num_epochs * (epoch_size / 4) / devices
def weight_decay : ℚ := 2 / 100
def warmup_iters : ℕ := 2 * (epoch_size / 4) / devices

/-! ## Checkpoint filtering (C7)

`save_adapter_checkpoint` (lines 268-270) calls
`fabric.save(file_path, {"model": model}, filter=adapter_filter)`. -/

/-- Modelled from the spec: `adapter_filter` lives in `lit_parrot/adapter.py`,
which is not part of the sources given here, and `fabric.save` with a `filter`
argument is the external Lightning collaborator.  Per spec §4.6 the save path
"accepts the full model and a predicate that classifies each named parameter
as adapter or base" and "produces a serialized artifact containing only
parameters for which the predicate is true".  The model's state dict is an
association list from parameter names to tensors (opaque type `α`); the
predicate is abstract. -/
def save_adapter_checkpoint {α : Type} (adapterFilter : String → Bool)
    (stateDict : List (String × α)) : List (String × α) :=
  stateDict.filter (fun kv => adapterFilter kv.1)

/-! ## Loss function (C4)

`loss_fn` (lines 236-241) shifts logits/targets for the next-token objective
and calls `torch.nn.functional.cross_entropy(..., ignore_index=-1)` with the
default mean reduction.  A `(batch, seq, vocab)` tensor is represented as a
function `ℕ → ℕ → ℕ → ℝ` together with its dimensions; a `(batch, seq)`
integer tensor as `ℕ → ℕ → ℤ`. -/

/-- The cross-entropy of one logit row `z` (vocabulary size `V`) against the
class index `t`: `-log softmax(z)[t]`. -/
noncomputable def crossEntropyLogit (V : ℕ) (z : ℕ → ℝ) (t : ℤ) : ℝ :=
  -Real.log (Real.exp (z t.toNat) / ∑ v ∈ Finset.range V, Real.exp (z v))

/-- The positions of a `(B, S)` target tensor that are not the ignore index
`-1`; only these enter the mean reduction of `cross_entropy`. -/
def keptPositions (B S : ℕ) (targets : ℕ → ℕ → ℤ) : Finset (ℕ × ℕ) :=
  (Finset.range B ×ˢ Finset.range S).filter (fun p => targets p.1 p.2 ≠ -1)

/-- `cross_entropy(logits.view(-1, V), targets.view(-1), ignore_index=-1)`
with mean reduction: the sum of per-position cross-entropies over the
non-ignored positions divided by their number.  Flattening with `view` only
re-indexes the (row, target) pairs, so the mean is taken directly over
`(batch, position)` pairs. -/
noncomputable def crossEntropyMean (B S V : ℕ) (logits : ℕ → ℕ → ℕ → ℝ)
    (targets : ℕ → ℕ → ℤ) : ℝ :=
  (∑ p ∈ keptPositions B S targets,
      crossEntropyLogit V (logits p.1 p.2) (targets p.1 p.2)) /
    (keptPositions B S targets).card

/-- `loss_fn`: `logits[..., :-1, :]` restricts the sequence dimension to
`S - 1`; `targets[..., 1:]` shifts the target positions by one. -/
noncomputable def loss_fn (B S V : ℕ) (logits : ℕ → ℕ → ℕ → ℝ)
    (targets : ℕ → ℕ → ℤ) : ℝ :=
  crossEntropyMean B (S - 1) V logits (fun b s => targets b (s + 1))

/-! ## Batch sampler (C5, C9)

`get_batch` (lines 244-265): sample indices, pad the selected `input_ids`
with `0` and `labels` with `-1` up to `max_len`, stack, move to device.
Sampling (`torch.randint`) is modelled by taking the drawn index list as an
argument; device placement and `pin_memory` have no observable effect on the
tensor contents.  `torch.full((n,), ...)` raises for negative `n`, so padding
a sequence longer than `max_len` is modelled as `none`. -/

structure TokenizedExample where
  input_ids : List ℤ
  labels : List ℤ
deriving DecidableEq

instance : Inhabited TokenizedExample := ⟨⟨[], []⟩⟩

/-- `pad_right` (lines 252-255): `torch.cat((x, torch.full((max_len - len(x),),
pad_id)))`; fails (negative tensor dimension) when `x` is longer than
`max_len`. -/
def padRight (maxLen : ℕ) (padId : ℤ) (x : List ℤ) : Option (List ℤ) :=
  if x.length ≤ maxLen then some (x ++ List.replicate (maxLen - x.length) padId) else none

/-- `max_len` (line 250): the maximum `input_ids` length of the batch, or the
fixed `max_seq_length` on an XLA device.  It never looks at the labels. -/
def batchMaxLen (xla : Bool) (maxSeqLength : ℕ) (inputs : List (List ℤ)) : ℕ :=
  if xla then maxSeqLength else (inputs.map List.length).foldr max 0

/-- `get_batch`: the sampled `input_ids` and `labels`, each padded to
`max_len` and stacked. -/
def get_batch (xla : Bool) (maxSeqLength : ℕ) (data : List TokenizedExample)
    (ix : List ℕ) : Option (List (List ℤ) × List (List ℤ)) :=
  let input_ids := ix.map (fun i => (data.getD i default).input_ids)
  let labels := ix.map (fun i => (data.getD i default).labels)
  let maxLen := batchMaxLen xla maxSeqLength input_ids
  match input_ids.mapM (padRight maxLen 0), labels.mapM (padRight maxLen (-1)) with
  | some x, some y => some (x, y)
  | _, _ => none

/-! ## Training loop (C1, C2, C6, C10)

`train` (lines 119-202) is a loop `for iter_num in range(max_iters)` mutating
`step_count`, the optimizer learning rate, the gradient buffers and (through
`optimizer.step()`) the parameters and AdamW moments.  It is embedded as a
step function on an explicit state, emitting trace events for the optimizer
step, the gradient reset, periodic validation and periodic checkpointing.
The model's parameter vector is indexed by `ℕ`; `gradOf iterNum i` stands for
the gradient of iteration `iterNum`'s loss with respect to coordinate `i`
(`fabric.backward(loss / gradient_accumulation_iters)` accumulates the
`1/G`-scaled gradient into the `.grad` buffers, which `optimizer.zero_grad()`
resets to zero).  Logging and the speed monitor touch none of this state. -/

structure Hparams where
  G : ℕ
  warmup : ℕ
  base : ℚ
  saveI : ℕ
  evalI : ℕ
  wd : ℚ
  beta1 : ℚ
  beta2 : ℚ
  eps : ℚ

/-- The script's own hyperparameters: `G = 64 // 4 = 16`, `warmup_iters =
25000`, the AdamW betas/eps are the PyTorch defaults `(0.9, 0.999)` and
`1e-8`. -/
def defaultHparams : Hparams :=
  { G := gradient_accumulation_iters.toNat, warmup := warmup_iters,
    base := learning_rate, saveI := save_interval, evalI := eval_interval,
    wd := weight_decay, beta1 := 9 / 10, beta2 := 999 / 1000,
    eps := 1 / 100000000 }

structure TrainState where
  stepCount : ℕ
  lr : ℚ
  params : ℕ → ℝ
  grads : ℕ → ℝ
  m : ℕ → ℝ
  v : ℕ → ℝ
  adamT : ℕ

inductive Event where
  | optStep
  | zeroGrad
  | runValidate
  | saveCkpt (iterNum : ℕ)
  | finalSave
deriving DecidableEq

/-- One coordinate of a `torch.optim.AdamW` step, following PyTorch's
documented algorithm (decoupled weight decay, bias-corrected moments,
`amsgrad=False`): the external optimizer collaborator of the loop.  Every
movement of the parameter is scaled by `lr`. -/
noncomputable def adamwUpdate (lr wd beta1 beta2 eps : ℚ) (t : ℕ)
    (p m v g : ℝ) : ℝ × ℝ × ℝ :=
  let p1 := p - (lr : ℝ) * (wd : ℝ) * p
  let m1 := (beta1 : ℝ) * m + (1 - (beta1 : ℝ)) * g
  let v1 := (beta2 : ℝ) * v + (1 - (beta2 : ℝ)) * g ^ 2
  let mhat := m1 / (1 - (beta1 : ℝ) ^ t)
  let vhat := v1 / (1 - (beta2 : ℝ) ^ t)
  (p1 - (lr : ℝ) * mhat / (Real.sqrt vhat + (eps : ℝ)), m1, v1)

/-- Lines 152-156: while `step_count <= warmup_iters`, set the learning rate
to `learning_rate * step_count / warmup_iters`; otherwise leave it as it is. -/
def lrApply (hp : Hparams) (sc : ℕ) (lr0 : ℚ) : ℚ :=
  if sc ≤ hp.warmup then hp.base * (sc : ℚ) / (hp.warmup : ℚ) else lr0

/-- Line 162: `is_accumulating = (iter_num + 1) % gradient_accumulation_iters != 0`. -/
def isAccumulating (iterNum G : ℕ) : Bool := (iterNum + 1) % G != 0

/-- One iteration of the loop body (lines 151-202): learning-rate warmup,
backward with gradient accumulation, and on a non-accumulating iteration
`optimizer.step()`, `optimizer.zero_grad()`, `step_count += 1`, then the
periodic validation (`step_count % eval_interval == 0`) and the periodic
adapter checkpoint (`step_count % save_interval == 0`, named by `iter_num`). -/
noncomputable def trainIter (hp : Hparams) (gradOf : ℕ → ℕ → ℝ) (iterNum : ℕ)
    (s : TrainState) : TrainState × List Event :=
  let lr1 := lrApply hp s.stepCount s.lr
  let grads1 := fun i => s.grads i + gradOf iterNum i / (hp.G : ℝ)
  if isAccumulating iterNum hp.G then
    ({ s with lr := lr1, grads := grads1 }, [])
  else
    let t1 := s.adamT + 1
    let upd := fun i => adamwUpdate lr1 hp.wd hp.beta1 hp.beta2 hp.eps t1
      (s.params i) (s.m i) (s.v i) (grads1 i)
    ({ stepCount := s.stepCount + 1, lr := lr1,
       params := fun i => (upd i).1, grads := fun _ => 0,
       m := fun i => (upd i).2.1, v := fun i => (upd i).2.2, adamT := t1 },
      [Event.optStep, Event.zeroGrad] ++
        (if (s.stepCount + 1) % hp.evalI = 0 then [Event.runValidate] else []) ++
        (if (s.stepCount + 1) % hp.saveI = 0 then [Event.saveCkpt iterNum] else []))

/-- `len` consecutive loop iterations starting at iteration index `lo`. -/
noncomputable def runFrom (hp : Hparams) (gradOf : ℕ → ℕ → ℝ) :
    ℕ → ℕ → TrainState → TrainState × List Event
  | _, 0, s => (s, [])
  | lo, len + 1, s =>
    let r1 := trainIter hp gradOf lo s
    let r2 := runFrom hp gradOf (lo + 1) len r1.1
    (r2.1, r1.2 ++ r2.2)

/-- `train`: `for iter_num in range(max_iters)` from a given entry state. -/
noncomputable def trainRun (hp : Hparams) (gradOf : ℕ → ℕ → ℝ) (n : ℕ)
    (s : TrainState) : TrainState × List Event :=
  runFrom hp gradOf 0 n s

/-- The state at entry to `train`: `step_count = 0` (line 144), the optimizer
built with `lr=learning_rate` (line 104), fresh gradient buffers and fresh
AdamW moment estimates. -/
noncomputable def initState (hp : Hparams) (p0 : ℕ → ℝ) : TrainState :=
  { stepCount := 0, lr := hp.base, params := p0, grads := fun _ => 0,
    m := fun _ => 0, v := fun _ => 0, adamT := 0 }

/-- `main` (lines 76-116): run `train`, then unconditionally save the final
adapter checkpoint (lines 114-116). -/
noncomputable def mainEvents (hp : Hparams) (gradOf : ℕ → ℕ → ℝ) (p0 : ℕ → ℝ)
    (maxIters : ℕ) : List Event :=
  (trainRun hp gradOf maxIters (initState hp p0)).2 ++ [Event.finalSave]

/-! ## Validation routine (C8)

`validate` (lines 205-233) under `@torch.no_grad()`: `model.eval()`, a loop of
`eval_iters` forward passes filling a `torch.zeros(eval_iters)` buffer, the
buffer's mean, one illustrative generation (external `generate`/tokenizer
collaborators, no effect on the modelled state), then `model.train()`.
`batchLoss k` abstracts `loss_fn(model(input_ids), targets)` on the `k`-th
randomly sampled validation batch; under `no_grad` no gradient buffer is
touched, so the gradient, parameter and optimizer state pass through. -/

structure ModelOptState where
  training : Bool
  params : ℕ → ℝ
  grads : ℕ → ℝ
  optM : ℕ → ℝ
  optV : ℕ → ℝ

/-- `validate`: returns the mean validation loss, the post-call mutable state,
and the filled loss buffer. -/
noncomputable def validate (evalIters : ℕ) (batchLoss : ℕ → ℝ)
    (st : ModelOptState) : ℝ × ModelOptState × List ℝ :=
  let stEval := { st with training := false }
  let losses := (List.range evalIters).map batchLoss
  let valLoss := losses.sum / (evalIters : ℝ)
  (valLoss, { stEval with training := true }, losses)

/-! ## Theorems for C3 -/

/-- C3 (counterexample): the claim says a configuration whose
`batch_size / micro_batch_size` is not a positive integer fails before any
iteration runs.  With `batch_size = 6` and `micro_batch_size = 4` the true
ratio `3/2` is not an integer, yet `gradient_accumulation_iters` floors to
`1`, the assert passes, and the derived value differs from the ratio. -/
theorem config_assert_cex :
    ((6 : ℚ) / 4).den ≠ 1 ∧
      configAssertHolds 6 4 ∧
      ((gradient_accumulation_iters_of 6 4 : ℚ) ≠ (6 : ℚ) / 4) := by
  refine ⟨by norm_num, ?_, by norm_num [gradient_accumulation_iters_of]⟩
  show (0 : ℤ) < ⌊(6 : ℚ) / 4⌋
  norm_num

/-- C3 (amended): `gradient_accumulation_iters` is the floor of
`batch_size / micro_batch_size`, and the construction-time assert passes
exactly when that floor is positive, i.e. (for positive `micro_batch_size`)
exactly when `micro_batch_size ≤ batch_size`; integrality of the ratio is
not checked. -/
theorem config_assert_iff (bs mbs : ℚ) (hm : 0 < mbs) :
    gradient_accumulation_iters_of bs mbs = ⌊bs / mbs⌋ ∧
      (configAssertHolds bs mbs ↔ mbs ≤ bs) := by
  refine ⟨rfl, ?_⟩
  unfold configAssertHolds gradient_accumulation_iters_of
  rw [Int.lt_iff_add_one_le, zero_add, Int.le_floor]
  push_cast
  rw [one_le_div hm]

/-- Witness for C3's amended theorem at the script's own configuration. -/
theorem config_assert_iff_witness :
    (0 : ℚ) < micro_batch_size ∧
      (gradient_accumulation_iters = ⌊batch_size / micro_batch_size⌋ ∧
        (configAssertHolds batch_size micro_batch_size ↔
          micro_batch_size ≤ batch_size)) :=
  ⟨by norm_num [micro_batch_size],
    config_assert_iff batch_size micro_batch_size (by norm_num [micro_batch_size])⟩

/-! ## Theorem for C7 -/

/-- C7: the saved adapter checkpoint's parameter-name set is exactly the
adapter-filter-matching subset of the model's parameter-name set. -/
theorem save_adapter_checkpoint_keys {α : Type} (adapterFilter : String → Bool)
    (stateDict : List (String × α)) (k : String) :
    k ∈ (save_adapter_checkpoint adapterFilter stateDict).map Prod.fst ↔
      k ∈ stateDict.map Prod.fst ∧ adapterFilter k = true := by
  unfold save_adapter_checkpoint
  simp only [List.mem_map, List.mem_filter]
  constructor
  · rintro ⟨kv, ⟨hmem, hfilt⟩, rfl⟩
    exact ⟨⟨kv, hmem, rfl⟩, hfilt⟩
  · rintro ⟨⟨kv, hmem, rfl⟩, hfilt⟩
    exact ⟨kv, ⟨hmem, hfilt⟩, rfl⟩

/-! ## Theorem for C4 -/

/-- C4: `loss_fn` uses only the first `S - 1` logit steps and the targets from
position `1` on (the shift); the mean is over exactly the positions whose
shifted target is not `-1`; and perturbing the logits at a position whose
shifted target is `-1` leaves the loss unchanged, so such positions contribute
zero gradient. -/
theorem loss_fn_masking (B S V : ℕ) (L L2 L3 : ℕ → ℕ → ℕ → ℝ)
    (T T3 : ℕ → ℕ → ℤ) (b s : ℕ)
    (hb : b < B) (hs : s < S - 1) (ht : T b (s + 1) = -1)
    (hL2 : ∀ b' s' v', (b', s') ≠ (b, s) → L2 b' s' v' = L b' s' v')
    (hL3 : ∀ b' s' v', s' < S - 1 → L3 b' s' v' = L b' s' v')
    (hT3 : ∀ b' s', 1 ≤ s' → T3 b' s' = T b' s') :
    (∀ p : ℕ × ℕ,
        p ∈ keptPositions B (S - 1) (fun b' s' => T b' (s' + 1)) ↔
          p.1 < B ∧ p.2 < S - 1 ∧ T p.1 (p.2 + 1) ≠ -1) ∧
      loss_fn B S V L T =
        (∑ p ∈ keptPositions B (S - 1) (fun b' s' => T b' (s' + 1)),
            crossEntropyLogit V (L p.1 p.2) (T p.1 (p.2 + 1))) /
          (keptPositions B (S - 1) (fun b' s' => T b' (s' + 1))).card ∧
      loss_fn B S V L2 T = loss_fn B S V L T ∧
      loss_fn B S V L3 T3 = loss_fn B S V L T := by
  have hmem : ∀ p : ℕ × ℕ,
      p ∈ keptPositions B (S - 1) (fun b' s' => T b' (s' + 1)) ↔
        p.1 < B ∧ p.2 < S - 1 ∧ T p.1 (p.2 + 1) ≠ -1 := by
    intro p
    simp [keptPositions, Finset.mem_filter, Finset.mem_product, and_assoc]
  refine ⟨hmem, rfl, ?_, ?_⟩
  · unfold loss_fn crossEntropyMean
    congr 1
    apply Finset.sum_congr rfl
    intro p hp
    have hpk := (hmem p).mp hp
    have hne : (p.1, p.2) ≠ (b, s) := by
      intro hpe
      have h1 : p.1 = b := congrArg Prod.fst hpe
      have h2 : p.2 = s := congrArg Prod.snd hpe
      rw [h1, h2, ht] at hpk
      exact hpk.2.2 rfl
    have hrow : L2 p.1 p.2 = L p.1 p.2 := by
      funext v
      exact hL2 p.1 p.2 v hne
    rw [hrow]
  · have hTsh : (fun b' s' => T3 b' (s' + 1)) = (fun b' s' => T b' (s' + 1)) := by
      funext b' s'
      exact hT3 b' (s' + 1) (Nat.succ_le_succ (Nat.zero_le s'))
    unfold loss_fn crossEntropyMean
    rw [hTsh]
    congr 1
    apply Finset.sum_congr rfl
    intro p hp
    have hpk := (hmem p).mp hp
    have hrow : L3 p.1 p.2 = L p.1 p.2 := by
      funext v
      exact hL3 p.1 p.2 v hpk.2.1
    rw [hrow]

/-- Witness for C4 at `B = 1`, `S = 2`, `V = 2`, all-zero logits, all-`-1`
targets, and the trivial perturbations `L2 = L3 = L`, `T3 = T`. -/
theorem loss_fn_masking_witness :
    (0 : ℕ) < 1 ∧ (0 : ℕ) < 2 - 1 ∧ (fun (_ _ : ℕ) => (-1 : ℤ)) 0 (0 + 1) = -1 ∧
      (loss_fn 1 2 2 (fun _ _ _ => (0 : ℝ)) (fun _ _ => (-1 : ℤ)) =
          loss_fn 1 2 2 (fun _ _ _ => (0 : ℝ)) (fun _ _ => (-1 : ℤ))) :=
  ⟨Nat.one_pos, Nat.one_pos, rfl,
    (loss_fn_masking 1 2 2 (fun _ _ _ => (0 : ℝ)) (fun _ _ _ => (0 : ℝ))
        (fun _ _ _ => (0 : ℝ)) (fun _ _ => (-1 : ℤ)) (fun _ _ => (-1 : ℤ)) 0 0
        Nat.one_pos Nat.one_pos rfl (fun _ _ _ _ => rfl) (fun _ _ _ _ => rfl)
        (fun _ _ _ => rfl)).2.2.1⟩

lemma le_foldr_max (n : ℕ) (l : List ℕ) (h : n ∈ l) : n ≤ l.foldr max 0 := by
  induction l with
  | nil => cases h
  | cons a t ih =>
    rcases List.mem_cons.mp h with rfl | h2
    · exact le_max_left _ _
    · exact le_trans (ih h2) (le_max_right _ _)

lemma mapM_padRight_eq (maxLen : ℕ) (padId : ℤ) (l : List (List ℤ))
    (h : ∀ x ∈ l, x.length ≤ maxLen) :
    l.mapM (padRight maxLen padId) =
      some (l.map fun x => x ++ List.replicate (maxLen - x.length) padId) := by
  induction l with
  | nil => rfl
  | cons a t ih =>
    have ha : a.length ≤ maxLen := h a (List.mem_cons_self a t)
    have ht : ∀ x ∈ t, x.length ≤ maxLen := fun x hx => h x (List.mem_cons_of_mem a hx)
    rw [List.mapM_cons, ih ht]
    simp [padRight, ha]

lemma mapM_padRight_none (maxLen : ℕ) (padId : ℤ) (l : List (List ℤ))
    (x0 : List ℤ) (hx0 : x0 ∈ l) (hlen : maxLen < x0.length) :
    l.mapM (padRight maxLen padId) = none := by
  induction l with
  | nil => cases hx0
  | cons a t ih =>
    rw [List.mapM_cons]
    rcases List.mem_cons.mp hx0 with rfl | h2
    · have hpad : padRight maxLen padId x0 = none := by
        simp [padRight, Nat.not_le.mpr hlen]
      simp [hpad]
    · rw [ih h2]
      cases padRight maxLen padId a <;> rfl

/-! ## Theorems for C5 -/

/-- C5 (counterexample): the claim promises two equal-shape tensors for every
non-empty dataset, but the padding length is the maximum `input_ids` length,
so a sampled example whose `labels` sequence is longer than every sampled
`input_ids` sequence makes `pad_right` fail (`torch.full` with a negative
size) instead of returning tensors. -/
theorem get_batch_cex :
    get_batch false 10 [{ input_ids := [1], labels := [5, 6] }] [0] = none := by
  decide

/-- C5 (amended): for every non-empty sampled index list (the sampling
distribution itself is not modelled), provided every sampled `input_ids` and
`labels` sequence is no longer than the padding length — the batch's maximum
input length, or the fixed `max_seq_length` under XLA — `get_batch` returns
the sampled inputs right-padded with `0` and the sampled labels right-padded
with `-1`, as two lists of rows of identical shape: `ix.length` rows, each of
length `batchMaxLen`.  The source dataset is not consulted beyond reading and
is unchanged (the embedding is pure). -/
theorem get_batch_padded_shapes (xla : Bool) (maxSeqLength : ℕ)
    (data : List TokenizedExample) (ix : List ℕ) (hne : ix ≠ [])
    (hfit : ∀ i ∈ ix, (data.getD i default).input_ids.length ≤
      batchMaxLen xla maxSeqLength (ix.map fun j => (data.getD j default).input_ids))
    (hlab : ∀ i ∈ ix, (data.getD i default).labels.length ≤
      batchMaxLen xla maxSeqLength (ix.map fun j => (data.getD j default).input_ids)) :
    ∃ x y, get_batch xla maxSeqLength data ix = some (x, y) ∧
      x.length = ix.length ∧ y.length = ix.length ∧
      (∀ r ∈ x, r.length =
        batchMaxLen xla maxSeqLength (ix.map fun j => (data.getD j default).input_ids)) ∧
      (∀ r ∈ y, r.length =
        batchMaxLen xla maxSeqLength (ix.map fun j => (data.getD j default).input_ids)) := by
  set maxLen := batchMaxLen xla maxSeqLength
    (ix.map fun j => (data.getD j default).input_ids) with hml
  have hin : ∀ s ∈ ix.map (fun j => (data.getD j default).input_ids),
      s.length ≤ maxLen := by
    intro s hs
    rcases List.mem_map.mp hs with ⟨i, hi, rfl⟩
    exact hfit i hi
  have hla : ∀ s ∈ ix.map (fun j => (data.getD j default).labels),
      s.length ≤ maxLen := by
    intro s hs
    rcases List.mem_map.mp hs with ⟨i, hi, rfl⟩
    exact hlab i hi
  refine ⟨(ix.map fun j => (data.getD j default).input_ids).map
      (fun s => s ++ List.replicate (maxLen - s.length) 0),
    (ix.map fun j => (data.getD j default).labels).map
      (fun s => s ++ List.replicate (maxLen - s.length) (-1)),
    ?_, ?_, ?_, ?_, ?_⟩
  · simp only [get_batch]
    rw [← hml, mapM_padRight_eq maxLen 0 _ hin, mapM_padRight_eq maxLen (-1) _ hla]
  · simp
  · simp
  · intro r hr
    rcases List.mem_map.mp hr with ⟨s, hs, rfl⟩
    have := hin s hs
    simp [Nat.add_sub_cancel' this]
  · intro r hr
    rcases List.mem_map.mp hr with ⟨s, hs, rfl⟩
    have := hla s hs
    simp [Nat.add_sub_cancel' this]

/-- Witness for C5's amended theorem: one sampled example whose labels fit
under the batch's maximum input length. -/
theorem get_batch_padded_shapes_witness :
    (([0] : List ℕ) ≠ []) ∧
      (∃ x y, get_batch false 10 [{ input_ids := [1, 2], labels := [3] }] [0] =
          some (x, y) ∧
        x.length = ([0] : List ℕ).length ∧ y.length = ([0] : List ℕ).length ∧
        (∀ r ∈ x, r.length = batchMaxLen false 10
          (([0] : List ℕ).map fun j =>
            (([{ input_ids := [1, 2], labels := [3] }] :
              List TokenizedExample).getD j default).input_ids)) ∧
        (∀ r ∈ y, r.length = batchMaxLen false 10
          (([0] : List ℕ).map fun j =>
            (([{ input_ids := [1, 2], labels := [3] }] :
              List TokenizedExample).getD j default).input_ids))) :=
  ⟨by decide,
    get_batch_padded_shapes false 10 [{ input_ids := [1, 2], labels := [3] }] [0]
      (by decide) (by decide) (by decide)⟩

/-! ## Theorem for C9 -/

/-- C9: the padding length is computed from the sampled `input_ids` only —
replacing the labels of every example (keeping inputs) leaves it unchanged —
and a batch containing a labels sequence longer than the batch's maximum
input length makes `get_batch` fail rather than produce a tensor pair. -/
theorem get_batch_padding_precondition (maxSeqLength : ℕ)
    (data data2 : List TokenizedExample) (ix : List ℕ) (i0 : ℕ)
    (hagree : ∀ i ∈ ix,
      (data.getD i default).input_ids = (data2.getD i default).input_ids)
    (hi0 : i0 ∈ ix)
    (hlong : batchMaxLen false maxSeqLength
        (ix.map fun j => (data.getD j default).input_ids) <
      (data.getD i0 default).labels.length) :
    batchMaxLen false maxSeqLength
        (ix.map fun j => (data.getD j default).input_ids) =
      batchMaxLen false maxSeqLength
        (ix.map fun j => (data2.getD j default).input_ids) ∧
      get_batch false maxSeqLength data ix = none := by
  constructor
  · have : (ix.map fun j => (data.getD j default).input_ids) =
        (ix.map fun j => (data2.getD j default).input_ids) :=
      List.map_congr_left hagree
    rw [this]
  · have hnone : (ix.map fun j => (data.getD j default).labels).mapM
        (padRight (batchMaxLen false maxSeqLength
          (ix.map fun j => (data.getD j default).input_ids)) (-1)) = none :=
      mapM_padRight_none _ _ _ _
        (List.mem_map.mpr ⟨i0, hi0, rfl⟩) hlong
    simp only [get_batch]
    rw [hnone]
    cases (ix.map fun j => (data.getD j default).input_ids).mapM
        (padRight (batchMaxLen false maxSeqLength
          (ix.map fun j => (data.getD j default).input_ids)) 0) <;> rfl

/-- Witness for C9 at a dataset whose only example has labels longer than its
inputs. -/
theorem get_batch_padding_precondition_witness :
    (∀ i ∈ ([0] : List ℕ),
      (([{ input_ids := [1], labels := [5, 6] }] :
          List TokenizedExample).getD i default).input_ids =
        (([{ input_ids := [1], labels := [7, 8] }] :
          List TokenizedExample).getD i default).input_ids) ∧
      (0 ∈ ([0] : List ℕ)) ∧
      (batchMaxLen false 10 (([0] : List ℕ).map fun j =>
          (([{ input_ids := [1], labels := [5, 6] }] :
            List TokenizedExample).getD j default).input_ids) <
        (([{ input_ids := [1], labels := [5, 6] }] :
          List TokenizedExample).getD 0 default).labels.length) ∧
      get_batch false 10 [{ input_ids := [1], labels := [5, 6] }] [0] = none :=
  ⟨by decide, by decide, by decide,
    (get_batch_padding_precondition 10 [{ input_ids := [1], labels := [5, 6] }]
      [{ input_ids := [1], labels := [7, 8] }] [0] 0 (by decide) (by decide)
      (by decide)).2⟩

/-! ## Loop lemmas -/

lemma runFrom_zero (hp : Hparams) (g : ℕ → ℕ → ℝ) (lo : ℕ) (s : TrainState) :
    runFrom hp g lo 0 s = (s, []) := rfl

lemma runFrom_succ (hp : Hparams) (g : ℕ → ℕ → ℝ) (lo len : ℕ) (s : TrainState) :
    runFrom hp g lo (len + 1) s =
      ((runFrom hp g (lo + 1) len (trainIter hp g lo s).1).1,
        (trainIter hp g lo s).2 ++ (runFrom hp g (lo + 1) len (trainIter hp g lo s).1).2) :=
  rfl

lemma runFrom_one (hp : Hparams) (g : ℕ → ℕ → ℝ) (lo : ℕ) (s : TrainState) :
    runFrom hp g lo 1 s = trainIter hp g lo s := by
  rw [runFrom_succ, runFrom_zero]
  simp

lemma runFrom_add (hp : Hparams) (g : ℕ → ℕ → ℝ) (a : ℕ) :
    ∀ (b lo : ℕ) (s : TrainState),
      runFrom hp g lo (a + b) s =
        ((runFrom hp g (lo + a) b (runFrom hp g lo a s).1).1,
          (runFrom hp g lo a s).2 ++
            (runFrom hp g (lo + a) b (runFrom hp g lo a s).1).2) := by
  induction a with
  | zero =>
    intro b lo s
    simp [runFrom_zero]
  | succ a ih =>
    intro b lo s
    have h1 : a + 1 + b = (a + b) + 1 := by omega
    have h2 : lo + 1 + a = lo + (a + 1) := by omega
    rw [h1, runFrom_succ, ih, runFrom_succ hp g lo a, h2]
    simp [List.append_assoc]

lemma lrApply_idem (hp : Hparams) (sc : ℕ) (lr0 : ℚ) :
    lrApply hp sc (lrApply hp sc lr0) = lrApply hp sc lr0 := by
  unfold lrApply
  by_cases h : sc ≤ hp.warmup <;> simp [h]

lemma trainIter_lr (hp : Hparams) (g : ℕ → ℕ → ℝ) (i : ℕ) (s : TrainState) :
    (trainIter hp g i s).1.lr = lrApply hp s.stepCount s.lr := by
  unfold trainIter
  by_cases h : isAccumulating i hp.G = true <;> simp [h]

lemma trainIter_stepCount (hp : Hparams) (g : ℕ → ℕ → ℝ) (i : ℕ) (s : TrainState) :
    (trainIter hp g i s).1.stepCount =
      s.stepCount + (if (i + 1) % hp.G = 0 then 1 else 0) := by
  by_cases h : isAccumulating i hp.G = true
  · have h2 : (i + 1) % hp.G ≠ 0 := by simpa [isAccumulating] using h
    simp [trainIter, h, h2]
  · have h2 : (i + 1) % hp.G = 0 := by simpa [isAccumulating] using h
    simp [trainIter, h, h2]

lemma runFrom_accum (hp : Hparams) (g : ℕ → ℕ → ℝ) (len : ℕ) :
    ∀ (lo : ℕ) (s : TrainState),
      (∀ j < len, isAccumulating (lo + j) hp.G = true) →
      (runFrom hp g lo len s).1.stepCount = s.stepCount ∧
      (runFrom hp g lo len s).1.params = s.params ∧
      (runFrom hp g lo len s).1.m = s.m ∧
      (runFrom hp g lo len s).1.v = s.v ∧
      (runFrom hp g lo len s).1.adamT = s.adamT ∧
      (runFrom hp g lo len s).2 = [] ∧
      (runFrom hp g lo len s).1.lr =
        (if len = 0 then s.lr else lrApply hp s.stepCount s.lr) := by
  induction len with
  | zero =>
    intro lo s _
    simp [runFrom_zero]
  | succ len ih =>
    intro lo s hacc
    have h0 : isAccumulating lo hp.G = true := by
      simpa using hacc 0 (Nat.succ_pos len)
    have hstep : trainIter hp g lo s =
        ({ s with
            lr := lrApply hp s.stepCount s.lr
            grads := fun i => s.grads i + g lo i / (hp.G : ℝ) }, []) := by
      simp [trainIter, h0]
    have hacc' : ∀ j < len, isAccumulating (lo + 1 + j) hp.G = true := by
      intro j hj
      have h3 : lo + 1 + j = lo + (j + 1) := by omega
      rw [h3]
      exact hacc (j + 1) (by omega)
    rw [runFrom_succ, hstep]
    obtain ⟨h1, h2, h3, h4, h5, h6, h7⟩ := ih (lo + 1) _ hacc'
    refine ⟨h1, h2, h3, h4, h5, by simp [h6], ?_⟩
    rw [h7]
    by_cases hl : len = 0
    · simp [hl]
    · simp [hl, lrApply_idem]

lemma isAccumulating_group (hp : Hparams) (k j : ℕ) (hj : j < hp.G - 1) :
    isAccumulating (k * hp.G + j) hp.G = true := by
  unfold isAccumulating
  have h1 : (k * hp.G + j + 1) % hp.G = (j + 1) % hp.G := by
    rw [Nat.add_assoc, Nat.mul_comm k hp.G, Nat.mul_add_mod]
  have h2 : (j + 1) % hp.G = j + 1 := Nat.mod_eq_of_lt (by omega)
  simp [h1, h2]

lemma isAccumulating_last (hp : Hparams) (hG : 1 ≤ hp.G) (k : ℕ) :
    isAccumulating (k * hp.G + (hp.G - 1)) hp.G = false := by
  unfold isAccumulating
  have h1 : k * hp.G + (hp.G - 1) + 1 = (k + 1) * hp.G := by
    have h2 : hp.G - 1 + 1 = hp.G := by omega
    calc k * hp.G + (hp.G - 1) + 1 = k * hp.G + ((hp.G - 1) + 1) := by omega
      _ = k * hp.G + hp.G := by rw [h2]
      _ = (k + 1) * hp.G := by ring
  simp [h1, Nat.mul_mod_left]

lemma runFrom_group (hp : Hparams) (g : ℕ → ℕ → ℝ) (hG : 1 ≤ hp.G) (k : ℕ)
    (s : TrainState) :
    (∀ j < hp.G, (runFrom hp g (k * hp.G) j s).1.stepCount = s.stepCount ∧
      (runFrom hp g (k * hp.G) j s).1.params = s.params ∧
      (1 ≤ j → (runFrom hp g (k * hp.G) j s).1.lr = lrApply hp s.stepCount s.lr)) ∧
    (runFrom hp g (k * hp.G) hp.G s).1.stepCount = s.stepCount + 1 ∧
    (runFrom hp g (k * hp.G) hp.G s).1.lr = lrApply hp s.stepCount s.lr ∧
    (runFrom hp g (k * hp.G) hp.G s).1.grads = (fun _ => 0) ∧
    (∃ gfin : ℕ → ℝ, (runFrom hp g (k * hp.G) hp.G s).1.params = fun i =>
      (adamwUpdate (lrApply hp s.stepCount s.lr) hp.wd hp.beta1 hp.beta2 hp.eps
        (s.adamT + 1) (s.params i) (s.m i) (s.v i) (gfin i)).1) ∧
    (∃ post, (runFrom hp g (k * hp.G) hp.G s).2 =
      Event.optStep :: Event.zeroGrad :: post ∧ Event.optStep ∉ post) := by
  have part1 : ∀ j < hp.G,
      (runFrom hp g (k * hp.G) j s).1.stepCount = s.stepCount ∧
      (runFrom hp g (k * hp.G) j s).1.params = s.params ∧
      (1 ≤ j → (runFrom hp g (k * hp.G) j s).1.lr = lrApply hp s.stepCount s.lr) := by
    intro j hj
    obtain ⟨h1, h2, _, _, _, _, h7⟩ :=
      runFrom_accum hp g j (k * hp.G) s
        (fun i hi => isAccumulating_group hp k i (by omega))
    refine ⟨h1, h2, fun hj1 => ?_⟩
    rw [h7, if_neg (by omega)]
  have key := runFrom_add hp g (hp.G - 1) 1 (k * hp.G) s
  have hGe : hp.G - 1 + 1 = hp.G := by omega
  rw [hGe, runFrom_one] at key
  obtain ⟨a1, a2, a3, a4, a5, a6, a7⟩ :=
    runFrom_accum hp g (hp.G - 1) (k * hp.G) s
      (fun i hi => isAccumulating_group hp k i hi)
  have hlast := isAccumulating_last hp hG k
  have hlr2 : lrApply hp s.stepCount ((runFrom hp g (k * hp.G) (hp.G - 1) s).1).lr =
      lrApply hp s.stepCount s.lr := by
    rw [a7]
    by_cases h : hp.G - 1 = 0
    · simp [h]
    · simp [h, lrApply_idem]
  have hlr1 : lrApply hp
      ((runFrom hp g (k * hp.G) (hp.G - 1) s).1).stepCount
      ((runFrom hp g (k * hp.G) (hp.G - 1) s).1).lr =
      lrApply hp s.stepCount s.lr := by
    rw [a1]
    exact hlr2
  refine ⟨part1, ?_, ?_, ?_, ?_, ?_⟩
  · rw [key]
    simp [trainIter, hlast, a1]
  · rw [key]
    simp only [trainIter, hlast, Bool.false_eq_true, if_false]
    exact hlr1
  · rw [key]
    simp [trainIter, hlast]
  · refine ⟨fun i => ((runFrom hp g (k * hp.G) (hp.G - 1) s).1).grads i +
      g (k * hp.G + (hp.G - 1)) i / (hp.G : ℝ), ?_⟩
    rw [key]
    simp only [trainIter, hlast, Bool.false_eq_true, if_false]
    simp only [a1, a2, a3, a4, a5, hlr2]
  · rw [key]
    simp only [a6, List.nil_append]
    simp only [trainIter, hlast, Bool.false_eq_true, if_false]
    refine ⟨(if ((runFrom hp g (k * hp.G) (hp.G - 1) s).1.stepCount + 1) % hp.evalI = 0
        then [Event.runValidate] else []) ++
      (if ((runFrom hp g (k * hp.G) (hp.G - 1) s).1.stepCount + 1) % hp.saveI = 0
        then [Event.saveCkpt (k * hp.G + (hp.G - 1))] else []), ?_, ?_⟩
    · simp [List.append_assoc]
    · split_ifs <;> simp

lemma defaultHparams_G : defaultHparams.G = 16 := by
  norm_num [defaultHparams, gradient_accumulation_iters,
    gradient_accumulation_iters_of, batch_size, micro_batch_size, devices]
  rfl

lemma defaultHparams_warmup : defaultHparams.warmup = 25000 := by
  norm_num [defaultHparams, warmup_iters, epoch_size, devices]

/-! ## Theorem for C1 -/

/-- C1: an iteration is accumulating exactly when
`(iter_num + 1) % gradient_accumulation_iters != 0`; across one full
accumulation group of `G` iterations the step counter is unchanged until the
last iteration and increases by exactly one in total, exactly one optimizer
step occurs, and the gradients are zeroed immediately after that step (the
`zeroGrad` event directly follows the single `optStep` event, and the group
ends with zero gradient buffers). -/
theorem accumulation_group (hp : Hparams) (gradOf : ℕ → ℕ → ℝ) (hG : 1 ≤ hp.G)
    (k : ℕ) (s : TrainState) :
    (∀ i : ℕ, isAccumulating i hp.G = true ↔ (i + 1) % hp.G ≠ 0) ∧
    (∀ j < hp.G, (runFrom hp gradOf (k * hp.G) j s).1.stepCount = s.stepCount) ∧
    (runFrom hp gradOf (k * hp.G) hp.G s).1.stepCount = s.stepCount + 1 ∧
    (runFrom hp gradOf (k * hp.G) hp.G s).2.count Event.optStep = 1 ∧
    (runFrom hp gradOf (k * hp.G) hp.G s).1.grads = (fun _ => 0) ∧
    (∃ post, (runFrom hp gradOf (k * hp.G) hp.G s).2 =
      Event.optStep :: Event.zeroGrad :: post) := by
  obtain ⟨p1, p2, _, p4, _, p6⟩ := runFrom_group hp gradOf hG k s
  obtain ⟨post, hpost, hnotin⟩ := p6
  refine ⟨fun i => by simp [isAccumulating], fun j hj => (p1 j hj).1, p2, ?_, p4,
    ⟨post, hpost⟩⟩
  rw [hpost]
  have h0 : post.count Event.optStep = 0 := List.count_eq_zero.mpr hnotin
  simp [List.count_cons, h0]

/-- Witness for C1 at the script's hyperparameters, group `k = 0`, zero
gradient oracle and the fresh initial state. -/
theorem accumulation_group_witness :
    1 ≤ defaultHparams.G ∧
      ((∀ i : ℕ, isAccumulating i defaultHparams.G = true ↔
          (i + 1) % defaultHparams.G ≠ 0) ∧
        (∀ j < defaultHparams.G,
          (runFrom defaultHparams (fun _ _ => 0) (0 * defaultHparams.G) j
            (initState defaultHparams fun _ => 0)).1.stepCount =
          (initState defaultHparams fun _ => 0).stepCount) ∧
        (runFrom defaultHparams (fun _ _ => 0) (0 * defaultHparams.G)
          defaultHparams.G (initState defaultHparams fun _ => 0)).1.stepCount =
          (initState defaultHparams fun _ => 0).stepCount + 1 ∧
        (runFrom defaultHparams (fun _ _ => 0) (0 * defaultHparams.G)
          defaultHparams.G
          (initState defaultHparams fun _ => 0)).2.count Event.optStep = 1 ∧
        (runFrom defaultHparams (fun _ _ => 0) (0 * defaultHparams.G)
          defaultHparams.G (initState defaultHparams fun _ => 0)).1.grads =
          (fun _ => 0) ∧
        (∃ post,
          (runFrom defaultHparams (fun _ _ => 0) (0 * defaultHparams.G)
            defaultHparams.G (initState defaultHparams fun _ => 0)).2 =
            Event.optStep :: Event.zeroGrad :: post)) :=
  ⟨by simp [defaultHparams_G],
    accumulation_group defaultHparams (fun _ _ => 0) (by simp [defaultHparams_G]) 0
      (initState defaultHparams fun _ => 0)⟩

/-! ## Theorems for C10 -/

lemma adamwUpdate_zero_lr (wd beta1 beta2 eps : ℚ) (t : ℕ) (p m v gg : ℝ) :
    (adamwUpdate 0 wd beta1 beta2 eps t p m v gg).1 = p := by
  simp [adamwUpdate]

lemma lrApply_zero_step (hp : Hparams) (lr0 : ℚ) : lrApply hp 0 lr0 = 0 := by
  simp [lrApply]

/-- C10: during the whole first accumulation group `step_count = 0`, every
learning rate the loop sets in that group is
`learning_rate * 0 / warmup_iters = 0` (for every `warmup_iters ≥ 1`), and
the single optimizer step of the group runs with learning rate `0`, leaving
the model parameters unchanged. -/
theorem first_group_zero_lr (hp : Hparams) (gradOf : ℕ → ℕ → ℝ) (p0 : ℕ → ℝ)
    (hG : 1 ≤ hp.G) (hw : 1 ≤ hp.warmup) :
    (∀ j < hp.G, (runFrom hp gradOf 0 j (initState hp p0)).1.stepCount = 0) ∧
    (∀ j, 1 ≤ j → j ≤ hp.G →
      (runFrom hp gradOf 0 j (initState hp p0)).1.lr = 0) ∧
    (runFrom hp gradOf 0 hp.G (initState hp p0)).1.params = p0 ∧
    (runFrom hp gradOf 0 hp.G (initState hp p0)).2.count Event.optStep = 1 := by
  obtain ⟨p1, p2, p3, _, p5, p6⟩ := runFrom_group hp gradOf hG 0 (initState hp p0)
  rw [Nat.zero_mul] at p1 p2 p3 p5 p6
  have hinit_lr : lrApply hp (initState hp p0).stepCount (initState hp p0).lr = 0 := by
    simp only [initState]
    exact lrApply_zero_step hp hp.base
  refine ⟨?_, ?_, ?_, ?_⟩
  · intro j hj
    simpa [initState] using (p1 j hj).1
  · intro j h1 h2
    rcases Nat.lt_or_ge j hp.G with h | h
    · rw [(p1 j h).2.2 h1, hinit_lr]
    · have hjG : j = hp.G := by omega
      rw [hjG, p3, hinit_lr]
  · obtain ⟨gfin, hparams⟩ := p5
    rw [hparams, hinit_lr]
    funext i
    simp only [initState]
    exact adamwUpdate_zero_lr hp.wd hp.beta1 hp.beta2 hp.eps _ _ _ _ _
  · obtain ⟨post, hpost, hnotin⟩ := p6
    rw [hpost]
    have h0 : post.count Event.optStep = 0 := List.count_eq_zero.mpr hnotin
    simp [List.count_cons, h0]

/-- Witness for C10 at the script's hyperparameters. -/
theorem first_group_zero_lr_witness :
    1 ≤ defaultHparams.G ∧ 1 ≤ defaultHparams.warmup ∧
      ((∀ j < defaultHparams.G,
        (runFrom defaultHparams (fun _ _ => 1) 0 j
          (initState defaultHparams fun _ => 2)).1.stepCount = 0) ∧
      (∀ j, 1 ≤ j → j ≤ defaultHparams.G →
        (runFrom defaultHparams (fun _ _ => 1) 0 j
          (initState defaultHparams fun _ => 2)).1.lr = 0) ∧
      (runFrom defaultHparams (fun _ _ => 1) 0 defaultHparams.G
        (initState defaultHparams fun _ => 2)).1.params = (fun _ => 2) ∧
      (runFrom defaultHparams (fun _ _ => 1) 0 defaultHparams.G
        (initState defaultHparams fun _ => 2)).2.count Event.optStep = 1) :=
  ⟨by simp [defaultHparams_G], by simp [defaultHparams_warmup],
    first_group_zero_lr defaultHparams (fun _ _ => 1) (fun _ => 2)
      (by simp [defaultHparams_G]) (by simp [defaultHparams_warmup])⟩

/-! ## Theorems for C2 -/

lemma trainIter_lr_base (hp : Hparams) (g : ℕ → ℕ → ℝ) (hw : 1 ≤ hp.warmup)
    (i : ℕ) (s : TrainState) (hK : hp.warmup < s.stepCount → s.lr = hp.base) :
    hp.warmup < (trainIter hp g i s).1.stepCount →
      (trainIter hp g i s).1.lr = hp.base := by
  intro h
  rw [trainIter_lr]
  rw [trainIter_stepCount] at h
  by_cases hc : (i + 1) % hp.G = 0
  · rw [if_pos hc] at h
    unfold lrApply
    by_cases hle : s.stepCount ≤ hp.warmup
    · have heq : s.stepCount = hp.warmup := by omega
      rw [if_pos hle, heq, mul_div_assoc,
        div_self (Nat.cast_ne_zero.mpr (by omega : hp.warmup ≠ 0)), mul_one]
    · rw [if_neg hle]
      exact hK (by omega)
  · rw [if_neg hc, Nat.add_zero] at h
    unfold lrApply
    rw [if_neg (by omega)]
    exact hK h

/-- C2: on every iteration with `step_count <= warmup_iters` the loop sets the
learning rate to `learning_rate * step_count / warmup_iters`; that schedule is
non-decreasing on `[0, warmup_iters]`, equals `learning_rate` exactly at
`step_count = warmup_iters`, and once `step_count > warmup_iters` the rate of
any reachable loop state is left unchanged at `learning_rate`. -/
theorem warmup_schedule (hp : Hparams) (gradOf : ℕ → ℕ → ℝ) (p0 : ℕ → ℝ)
    (hb : 0 ≤ hp.base) (hw : 1 ≤ hp.warmup) :
    (∀ (i : ℕ) (s : TrainState),
      (trainIter hp gradOf i s).1.lr = lrApply hp s.stepCount s.lr) ∧
    (∀ (sc : ℕ) (lr0 : ℚ), sc ≤ hp.warmup →
      lrApply hp sc lr0 = hp.base * (sc : ℚ) / (hp.warmup : ℚ)) ∧
    (∀ (sc1 sc2 : ℕ) (lr0 lr1 : ℚ), sc1 ≤ sc2 → sc2 ≤ hp.warmup →
      lrApply hp sc1 lr0 ≤ lrApply hp sc2 lr1) ∧
    (∀ lr0 : ℚ, lrApply hp hp.warmup lr0 = hp.base) ∧
    (∀ n : ℕ, hp.warmup < (trainRun hp gradOf n (initState hp p0)).1.stepCount →
      (trainRun hp gradOf n (initState hp p0)).1.lr = hp.base) := by
  have hwq : (0 : ℚ) < (hp.warmup : ℚ) := by
    exact_mod_cast Nat.pos_of_ne_zero (by omega)
  have conj2 : ∀ (sc : ℕ) (lr0 : ℚ), sc ≤ hp.warmup →
      lrApply hp sc lr0 = hp.base * (sc : ℚ) / (hp.warmup : ℚ) := by
    intro sc lr0 hsc
    unfold lrApply
    rw [if_pos hsc]
  have conj4 : ∀ lr0 : ℚ, lrApply hp hp.warmup lr0 = hp.base := by
    intro lr0
    unfold lrApply
    rw [if_pos le_rfl, mul_div_assoc,
      div_self (Nat.cast_ne_zero.mpr (by omega : hp.warmup ≠ 0)), mul_one]
  refine ⟨trainIter_lr hp gradOf, conj2, ?_, conj4, ?_⟩
  · intro sc1 sc2 lr0 lr1 h12 h2w
    rw [conj2 sc1 lr0 (le_trans h12 h2w), conj2 sc2 lr1 h2w]
    exact (div_le_div_right hwq).mpr
      (mul_le_mul_of_nonneg_left (by exact_mod_cast h12) hb)
  · intro n
    induction n with
    | zero =>
      intro h
      simp [trainRun, runFrom_zero, initState] at h
    | succ n ih =>
      have hdec := runFrom_add hp gradOf n 1 0 (initState hp p0)
      rw [runFrom_one, Nat.zero_add] at hdec
      unfold trainRun at *
      rw [hdec]
      exact trainIter_lr_base hp gradOf hw n _ ih

/-- Witness for C2 at the script's hyperparameters. -/
theorem warmup_schedule_witness :
    (0 : ℚ) ≤ defaultHparams.base ∧ 1 ≤ defaultHparams.warmup ∧
      ((∀ (i : ℕ) (s : TrainState),
        (trainIter defaultHparams (fun _ _ => 0) i s).1.lr =
          lrApply defaultHparams s.stepCount s.lr) ∧
      (∀ (sc : ℕ) (lr0 : ℚ), sc ≤ defaultHparams.warmup →
        lrApply defaultHparams sc lr0 =
          defaultHparams.base * (sc : ℚ) / (defaultHparams.warmup : ℚ)) ∧
      (∀ (sc1 sc2 : ℕ) (lr0 lr1 : ℚ), sc1 ≤ sc2 → sc2 ≤ defaultHparams.warmup →
        lrApply defaultHparams sc1 lr0 ≤ lrApply defaultHparams sc2 lr1) ∧
      (∀ lr0 : ℚ, lrApply defaultHparams defaultHparams.warmup lr0 =
        defaultHparams.base) ∧
      (∀ n : ℕ, defaultHparams.warmup <
          (trainRun defaultHparams (fun _ _ => 0) n
            (initState defaultHparams fun _ => 0)).1.stepCount →
        (trainRun defaultHparams (fun _ _ => 0) n
          (initState defaultHparams fun _ => 0)).1.lr = defaultHparams.base)) :=
  ⟨by norm_num [defaultHparams, learning_rate], by simp [defaultHparams_warmup],
    warmup_schedule defaultHparams (fun _ _ => 0) (fun _ => 0)
      (by norm_num [defaultHparams, learning_rate])
      (by simp [defaultHparams_warmup])⟩

/-! ## Theorems for C6 -/

lemma runFrom_zero_stepCount (hp : Hparams) (g : ℕ → ℕ → ℝ) (s : TrainState)
    (n : ℕ) :
    (runFrom hp g 0 n s).1.stepCount = s.stepCount + n / hp.G := by
  induction n with
  | zero => simp [runFrom_zero]
  | succ n ih =>
    have hdec := runFrom_add hp g n 1 0 s
    rw [runFrom_one, Nat.zero_add] at hdec
    rw [hdec, trainIter_stepCount, ih]
    have hsd : (n + 1) / hp.G = n / hp.G + if (n + 1) % hp.G = 0 then 1 else 0 := by
      rw [Nat.succ_div]
      simp [Nat.dvd_iff_mod_eq_zero]
    rw [hsd, Nat.add_assoc]

lemma saveCkpt_mem_trainIter (hp : Hparams) (g : ℕ → ℕ → ℝ) (lo : ℕ)
    (s : TrainState) (i : ℕ) :
    Event.saveCkpt i ∈ (trainIter hp g lo s).2 ↔
      (isAccumulating lo hp.G = false ∧ i = lo ∧
        (s.stepCount + 1) % hp.saveI = 0) := by
  by_cases h : isAccumulating lo hp.G = true
  · simp [trainIter, h]
  · have hf : isAccumulating lo hp.G = false := by simpa using h
    simp [trainIter, hf]
    exact and_comm

lemma saveCkpt_mem_runFrom (hp : Hparams) (g : ℕ → ℕ → ℝ) (i : ℕ) (n : ℕ) :
    ∀ (lo : ℕ) (s : TrainState),
      Event.saveCkpt i ∈ (runFrom hp g lo n s).2 ↔
        ∃ j, j < n ∧ lo + j = i ∧ isAccumulating i hp.G = false ∧
          ((runFrom hp g lo j s).1.stepCount + 1) % hp.saveI = 0 := by
  induction n with
  | zero => intro lo s; simp [runFrom_zero]
  | succ n ih =>
    intro lo s
    rw [runFrom_succ]
    simp only [List.mem_append]
    rw [saveCkpt_mem_trainIter, ih (lo + 1) (trainIter hp g lo s).1]
    constructor
    · rintro (⟨hacc, hi, hsave⟩ | ⟨j, hj, hji, hacc, hsave⟩)
      · refine ⟨0, by omega, by omega, ?_, ?_⟩
        · rw [hi]
          exact hacc
        · simpa [runFrom_zero] using hsave
      · refine ⟨j + 1, by omega, by omega, hacc, ?_⟩
        rw [runFrom_succ]
        exact hsave
    · rintro ⟨j, hj, hji, hacc, hsave⟩
      cases j with
      | zero =>
        left
        refine ⟨?_, by omega, ?_⟩
        · rw [show lo = i from by omega]
          exact hacc
        · simpa [runFrom_zero] using hsave
      | succ j =>
        right
        refine ⟨j, by omega, by omega, hacc, ?_⟩
        rw [runFrom_succ] at hsave
        exact hsave

lemma isAccumulating_false_iff (i G : ℕ) :
    isAccumulating i G = false ↔ (i + 1) % G = 0 := by
  simp [isAccumulating]

/-- C6: for every `max_iters` and every iteration `i < max_iters`, a
checkpoint named by the iteration index `i` is saved exactly when `i` is
non-accumulating and the (just incremented) `step_count = (i + 1) / G` is a
multiple of `save_interval`; and `main` always saves one final adapter
checkpoint after the loop exits, whatever `max_iters` is. -/
theorem checkpoint_schedule (hp : Hparams) (gradOf : ℕ → ℕ → ℝ) (p0 : ℕ → ℝ)
    (hG : 1 ≤ hp.G) (maxIters i : ℕ) (hi : i < maxIters) :
    (Event.saveCkpt i ∈ mainEvents hp gradOf p0 maxIters ↔
      (isAccumulating i hp.G = false ∧ ((i + 1) / hp.G) % hp.saveI = 0)) ∧
    (mainEvents hp gradOf p0 maxIters).getLast? = some Event.finalSave := by
  have hstep : ∀ j : ℕ,
      (runFrom hp gradOf 0 j (initState hp p0)).1.stepCount = j / hp.G := by
    intro j
    rw [runFrom_zero_stepCount]
    simp [initState]
  have hsucc : ∀ j : ℕ, (j + 1) % hp.G = 0 → (j + 1) / hp.G = j / hp.G + 1 := by
    intro j hjm
    rw [Nat.succ_div, if_pos (Nat.dvd_of_mod_eq_zero hjm)]
  constructor
  · constructor
    · intro hmem
      unfold mainEvents trainRun at hmem
      rcases List.mem_append.mp hmem with hmem | hmem
      · rw [saveCkpt_mem_runFrom] at hmem
        obtain ⟨j, hj, hji, hacc, hsave⟩ := hmem
        have hjeq : j = i := by omega
        subst hjeq
        rw [hstep j] at hsave
        refine ⟨hacc, ?_⟩
        rw [hsucc j ((isAccumulating_false_iff j hp.G).mp hacc)]
        exact hsave
      · simp at hmem
    · rintro ⟨hacc, hmod⟩
      unfold mainEvents trainRun
      apply List.mem_append.mpr
      left
      rw [saveCkpt_mem_runFrom]
      refine ⟨i, hi, by omega, hacc, ?_⟩
      rw [hstep i, ← hsucc i ((isAccumulating_false_iff i hp.G).mp hacc)]
      exact hmod
  · unfold mainEvents
    exact List.getLast?_concat _

/-- Witness for C6 at the script's hyperparameters, `max_iters = 1`, `i = 0`. -/
theorem checkpoint_schedule_witness :
    1 ≤ defaultHparams.G ∧ (0 : ℕ) < 1 ∧
      ((Event.saveCkpt 0 ∈ mainEvents defaultHparams (fun _ _ => 0) (fun _ => 0) 1 ↔
        (isAccumulating 0 defaultHparams.G = false ∧
          ((0 + 1) / defaultHparams.G) % defaultHparams.saveI = 0)) ∧
      (mainEvents defaultHparams (fun _ _ => 0) (fun _ => 0) 1).getLast? =
        some Event.finalSave) :=
  ⟨by simp [defaultHparams_G], Nat.one_pos,
    checkpoint_schedule defaultHparams (fun _ _ => 0) (fun _ => 0)
      (by simp [defaultHparams_G]) 1 0 Nat.one_pos⟩

/-! ## Theorem for C8 -/

/-- C8: `validate` fills the fixed-size loss buffer with exactly `eval_iters`
per-batch forward losses, returns their arithmetic mean, leaves the model in
training mode on return, and does not change parameters, gradient buffers or
optimizer moment state. -/
theorem validate_frame (evalIters : ℕ) (batchLoss : ℕ → ℝ) (st : ModelOptState)
    (h : 0 < evalIters) :
    (validate evalIters batchLoss st).2.2.length = evalIters ∧
    (validate evalIters batchLoss st).1 =
      (validate evalIters batchLoss st).2.2.sum / (evalIters : ℝ) ∧
    (validate evalIters batchLoss st).2.1.training = true ∧
    (validate evalIters batchLoss st).2.1.params = st.params ∧
    (validate evalIters batchLoss st).2.1.grads = st.grads ∧
    (validate evalIters batchLoss st).2.1.optM = st.optM ∧
    (validate evalIters batchLoss st).2.1.optV = st.optV :=
  ⟨by simp [validate], rfl, rfl, rfl, rfl, rfl, rfl⟩

/-- Witness for C8 at the script's `eval_iters = 100`, constant unit losses
and a concrete mutable state. -/
theorem validate_frame_witness :
    0 < eval_iters ∧
      ((validate eval_iters (fun _ => 1)
          ⟨true, fun _ => 0, fun _ => 0, fun _ => 0, fun _ => 0⟩).2.2.length =
        eval_iters ∧
      (validate eval_iters (fun _ => 1)
          ⟨true, fun _ => 0, fun _ => 0, fun _ => 0, fun _ => 0⟩).1 =
        (validate eval_iters (fun _ => 1)
          ⟨true, fun _ => 0, fun _ => 0, fun _ => 0, fun _ => 0⟩).2.2.sum /
          (eval_iters : ℝ) ∧
      (validate eval_iters (fun _ => 1)
          ⟨true, fun _ => 0, fun _ => 0, fun _ => 0, fun _ => 0⟩).2.1.training =
        true ∧
      (validate eval_iters (fun _ => 1)
          ⟨true, fun _ => 0, fun _ => 0, fun _ => 0, fun _ => 0⟩).2.1.params =
        (fun _ => 0) ∧
      (validate eval_iters (fun _ => 1)
          ⟨true, fun _ => 0, fun _ => 0, fun _ => 0, fun _ => 0⟩).2.1.grads =
        (fun _ => 0) ∧
      (validate eval_iters (fun _ => 1)
          ⟨true, fun _ => 0, fun _ => 0, fun _ => 0, fun _ => 0⟩).2.1.optM =
        (fun _ => 0) ∧
      (validate eval_iters (fun _ => 1)
          ⟨true, fun _ => 0, fun _ => 0, fun _ => 0, fun _ => 0⟩).2.1.optV =
        (fun _ => 0)) :=
  ⟨by decide,
    validate_frame eval_iters (fun _ => 1)
      ⟨true, fun _ => 0, fun _ => 0, fun _ => 0, fun _ => 0⟩ (by decide)⟩
